import Mathlib

/-!
Shallow embedding of the actix-http HTTP/1 client protocol driver
(file `src/actix-http/src/client/h1proto.rs`): request sending with
Expect/100-continue handling, streaming body transmission with
write-buffer backpressure, connection-lease release, payload streaming
and tunnel opening.  Peer behaviour (the sequence of decoded response
heads, respectively decoded payload items) is supplied as an explicit
oracle; the effects of the driver on the transport and on the pool are
recorded as an event trace.
-/

namespace H1Proto

/-- Header map: ordered list of name/value pairs (models `HeaderMap`). -/
structure HeaderMap where
  entries : List (String × String)
deriving DecidableEq

def HeaderMap.empty : HeaderMap := ⟨[]⟩

/-- Models `HeaderMap::contains_key`. -/
def HeaderMap.containsKey (m : HeaderMap) (k : String) : Bool :=
  m.entries.any (fun e => e.1 == k)

/-- Models `HeaderMap::insert`: replaces any existing value for the key. -/
def HeaderMap.insert (m : HeaderMap) (k v : String) : HeaderMap :=
  ⟨(k, v) :: m.entries.filter (fun e => !(e.1 == k))⟩

/-- Look up the value stored for a key. -/
def HeaderMap.get (m : HeaderMap) (k : String) : Option String :=
  (m.entries.find? (fun e => e.1 == k)).map (fun e => e.2)

/-- The `HOST` header name. -/
def HOST : String := "host"

/-- The `EXPECT` header name. -/
def EXPECT : String := "expect"

/-- The parts of `Uri` consulted by the driver: scheme, host and port. -/
structure Uri where
  scheme : String
  host : Option String
  port : Option Nat
deriving DecidableEq

/-- The parts of `RequestHead` consulted by the driver. -/
structure RequestHead where
  uri : Uri
  headers : HeaderMap
deriving DecidableEq

/-- Models `RequestHeadType`: a uniquely owned head, or a shared
(reference-counted) head together with an optional extra-headers overlay. -/
inductive RequestHeadType
| owned (head : RequestHead)
| rc (head : RequestHead) (extraHeaders : Option HeaderMap)
deriving DecidableEq

/-- Models `RequestHeadType::as_ref`: the base head. -/
def RequestHeadType.asRef : RequestHeadType → RequestHead
| .owned h => h
| .rc h _ => h

/-- Models `RequestHeadType::extra_headers`. -/
def RequestHeadType.extraHeaders : RequestHeadType → Option HeaderMap
| .owned _ => none
| .rc _ e => e

/-- Spec §3 notion of a request declaring a header: the lookup consults
both the base head and, if present, the overlay. -/
def RequestHeadType.declaresHeader (head : RequestHeadType) (k : String) : Bool :=
  head.asRef.headers.containsKey k ||
    ((head.extraHeaders.map (fun m => m.containsKey k)).getD false)

/-- Combined header lookup over base head and overlay. -/
def RequestHeadType.headerValue (head : RequestHeadType) (k : String) : Option String :=
  match head.asRef.headers.get k with
  | some v => some v
  | none => head.extraHeaders.bind (fun m => m.get k)

/-- Models `BodySize`. -/
inductive BodySize
| none
| empty
| sized (n : Nat)
| stream
deriving DecidableEq

/-- The repeated match `BodySize::None | BodySize::Empty | BodySize::Sized(0)`
from `send_request` (lines 79 and 113 of the source). -/
def BodySize.isTrivial : BodySize → Bool
| .none => true
| .empty => true
| .sized 0 => true
| _ => false

/-- A request body: its declared size classification and the chunk
sequence its `poll_next` yields before signalling end-of-data. -/
structure MessageBody where
  size : BodySize
  chunks : List (List Nat)
deriving DecidableEq

/-- The part of `ResponseHead` consulted by the driver: the status code. -/
structure ResponseHead where
  status : Nat
deriving DecidableEq

/-- Models `h1::MessageType` as reported by the codec. -/
inductive MessageType
| none
| payload
| stream
deriving DecidableEq

/-- The codec readouts consulted by the driver: `keepalive()` and
`message_type()`.  The wire-level framing itself is out of scope. -/
structure ClientCodec where
  keepalive : Bool
  messageType : MessageType
deriving DecidableEq

/-- Models `Payload`: either the empty payload marker or a stream. -/
inductive Payload
| none
| stream
deriving DecidableEq

/-- The only error constructors the modelled paths can produce:
`SendRequestError::Connect(ConnectError::Disconnected)`. -/
inductive SendError
| connectDisconnected
deriving DecidableEq

/-- Observable effects of the driver on the transport and the pool. -/
inductive Ev
| sendHead (head : RequestHeadType) (size : BodySize)
| readHead (status : Nat)
| bodyChunk (b : List Nat)
| bodyEof
| release
| close
deriving DecidableEq

/-- An event surrendering the transport back to the pool. -/
def Ev.isSurrender : Ev → Bool
| .release => true
| .close => true
| _ => false

/-- A body-chunk frame written to the wire. -/
def Ev.isBodyChunk : Ev → Bool
| .bodyChunk _ => true
| _ => false

/-- Any body frame (chunk or end-of-body sentinel) written to the wire. -/
def Ev.isBodyFrame : Ev → Bool
| .bodyChunk _ => true
| .bodyEof => true
| _ => false

/-- A response head observed from the peer. -/
def Ev.isReadHead : Ev → Bool
| .readHead _ => true
| _ => false

/-- Models `H1Connection`: the lease over the pooled transport.  The
timestamp and the pool handle influence no modelled decision; the pool
interaction is recorded in the event trace instead. -/
structure H1Connection where
  io : Option Unit
deriving DecidableEq

/-- Models `H1Connection::close`: surrender the transport to the pool
discard path, a no-op when the slot is already empty. -/
def H1Connection.close (c : H1Connection) : H1Connection × List Ev :=
  match c.io with
  | some _ => (⟨none⟩, [Ev.close])
  | none => (c, [])

/-- Models `H1Connection::release`: surrender the transport to the pool
reuse path, a no-op when the slot is already empty. -/
def H1Connection.release (c : H1Connection) : H1Connection × List Ev :=
  match c.io with
  | some _ => (⟨none⟩, [Ev.release])
  | none => (c, [])

/-- Models `H1Connection::on_release`. -/
def H1Connection.onRelease (c : H1Connection) (keepAlive : Bool) : H1Connection × List Ev :=
  if keepAlive then c.release else c.close

instance {e a : Type} [DecidableEq e] [DecidableEq a] : DecidableEq (Except e a) := fun x y =>
  match x, y with
  | .ok x, .ok y =>
    if h : x = y then isTrue (by rw [h]) else isFalse (by intro hc; cases hc; exact h rfl)
  | .error x, .error y =>
    if h : x = y then isTrue (by rw [h]) else isFalse (by intro hc; cases hc; exact h rfl)
  | .ok _, .error _ => isFalse (by intro hc; cases hc)
  | .error _, .ok _ => isFalse (by intro hc; cases hc)

/-- Result of `open_tunnel`: on success the response head together with
the still-framed connection, modelled as the unconsumed remainder of the
peer-response oracle. -/
structure TunnelResult where
  result : Except SendError (ResponseHead × List ResponseHead)
  events : List Ev
deriving DecidableEq

/-- Models `open_tunnel`: send the head with `BodySize::None`, await
exactly one response head (absence is a disconnection error) and return
head and framed connection to the caller. -/
def openTunnel (head : RequestHeadType) (responses : List ResponseHead) : TunnelResult :=
  let evs0 : List Ev := [Ev.sendHead head BodySize.none]
  match responses with
  | [] => ⟨.error .connectDisconnected, evs0⟩
  | h :: rest => ⟨.ok (h, rest), evs0 ++ [Ev.readHead h.status]⟩

/-- Validity of a character inside a header value, as enforced by the
header-value constructor the source calls through `try_into_value`. -/
def isValidHeaderChar (c : Char) : Bool :=
  (32 ≤ c.toNat && c.toNat ≠ 127) || c.toNat == 9

/-- Models the fallible conversion of the formatted host bytes into a
header value (`try_into_value` at line 50 of the source). -/
def tryIntoValue (s : String) : Option String :=
  if s.data.all isValidHeaderChar then some s else none

/-- The value formatting of lines 45-48 of the source: the port is
omitted when absent or when it is 80 or 443 (`None | Some(80) | Some(443)`),
regardless of the scheme of the URI. -/
def formatHostValue (host : String) (port : Option Nat) : String :=
  match port with
  | none => host
  | some p => if p = 80 || p = 443 then host else host ++ ":" ++ toString p

/-- Follows the spec wording of claim C5 (`Modelled from the spec`): the
synthesized value equals `host` when the port is absent or equals the
default port of the scheme, and `host:port` otherwise. -/
def schemeDefaultPort (scheme : String) : Option Nat :=
  if scheme = "http" then some 80 else if scheme = "https" then some 443 else none

/-- Follows the spec wording of claim C5 (`Modelled from the spec`):
reference value against which the code-side `formatHostValue` is compared. -/
def specHostValue (uri : Uri) (host : String) : String :=
  match uri.port with
  | none => host
  | some p => if schemeDefaultPort uri.scheme = some p then host else host ++ ":" ++ toString p

/-- Models lines 38-63 of `send_request`: if no Host header is present on
either the base head or the overlay, synthesize one from the URI; on a
conversion failure the error is logged and the header simply omitted; an
owned head is modified in place, a shared head only through its overlay. -/
def setHostHeader (head : RequestHeadType) : RequestHeadType :=
  if !(head.asRef.headers.containsKey HOST)
      && !((head.extraHeaders.map (fun m => m.containsKey HOST)).getD false) then
    match head.asRef.uri.host with
    | some host =>
      match tryIntoValue (formatHostValue host head.asRef.uri.port) with
      | some value =>
        match head with
        | .owned h => .owned { h with headers := h.headers.insert HOST value }
        | .rc h extra => .rc h (some ((extra.getD HeaderMap.empty).insert HOST value))
      | none => head
    | none => head
  else head

/-- Outcome of one invocation of `send_request`: its return value, the
trace of transport/pool effects, and the final lease state. -/
structure SendResult where
  result : Except SendError (ResponseHead × Payload)
  events : List Ev
  conn : H1Connection
deriving DecidableEq

/-- The frames `send_body` writes for a body: one chunk frame per chunk
the producer yields, then the end-of-body sentinel `Chunk(None)`. -/
def bodyFrames (body : MessageBody) : List Ev :=
  body.chunks.map Ev.bodyChunk ++ [Ev.bodyEof]

/-- Models the message-type decision of lines 127-138 of `send_request`:
`MessageType::None` reads the keep-alive flag, releases or closes the
lease and returns the empty payload marker; any other type hands the
still-framed lease to the payload stream. -/
def respond (head : ResponseHead) (codec : ClientCodec) (conn : H1Connection) : SendResult :=
  match codec.messageType with
  | .none =>
    let s := conn.onRelease codec.keepalive
    ⟨.ok (head, Payload.none), s.2, s.1⟩
  | _ => ⟨.ok (head, Payload.stream), [], conn⟩

/-- Models `send_request` after the host-header step, lines 65-139:
the Expect precondition check (which consults only the base head),
head transmission, the 100-continue wait, body transmission, final
response-head reception and the message-type decision.  The list
`responses` is the oracle of response heads the peer delivers; running
out of it where a head is awaited is the disconnection error. -/
def exchange (head : RequestHeadType) (body : MessageBody) (codec : ClientCodec)
    (responses : List ResponseHead) : SendResult :=
  let conn : H1Connection := ⟨some ()⟩
  if head.asRef.headers.containsKey EXPECT && body.size.isTrivial then
    let s := conn.onRelease codec.keepalive
    ⟨.error .connectDisconnected, s.2, s.1⟩
  else
    let isExpect := head.asRef.headers.containsKey EXPECT
    let evs0 : List Ev := [Ev.sendHead head body.size]
    if isExpect then
      match responses with
      | [] => ⟨.error .connectDisconnected, evs0, conn⟩
      | h1 :: rest =>
        if h1.status = 100 then
          let bodyEvs := if body.size.isTrivial then [] else bodyFrames body
          match rest with
          | [] => ⟨.error .connectDisconnected, evs0 ++ [Ev.readHead h1.status] ++ bodyEvs, conn⟩
          | h2 :: _ =>
            let r := respond h2 codec conn
            ⟨r.result,
             evs0 ++ [Ev.readHead h1.status] ++ bodyEvs ++ [Ev.readHead h2.status] ++ r.events,
             r.conn⟩
        else
          let r := respond h1 codec conn
          ⟨r.result, evs0 ++ [Ev.readHead h1.status] ++ r.events, r.conn⟩
    else
      let bodyEvs := if body.size.isTrivial then [] else bodyFrames body
      match responses with
      | [] => ⟨.error .connectDisconnected, evs0 ++ bodyEvs, conn⟩
      | h1 :: _ =>
        let r := respond h1 codec conn
        ⟨r.result, evs0 ++ bodyEvs ++ [Ev.readHead h1.status] ++ r.events, r.conn⟩

/-- Models `send_request` (lines 27-139): host-header normalization
followed by the exchange. -/
def sendRequest (head : RequestHeadType) (body : MessageBody) (codec : ClientCodec)
    (responses : List ResponseHead) : SendResult :=
  exchange (setHostHeader head) body codec responses

/-- A body-chunk frame is written strictly before the first response head
is observed. -/
def chunkBeforeFirstHead (evs : List Ev) : Bool :=
  (evs.takeWhile (fun e => !e.isReadHead)).any Ev.isBodyChunk

/-!  The body writer, `send_body` (lines 161-203), modelled with its
write buffer.  The buffer is counted in bytes; `hw` is the high-water
mark of the framed write buffer against which `is_write_buf_full`
compares.  Chunks are given by their encoded byte lengths; `eofLen` is
the encoded length of the end-of-body sentinel.  The flush oracle lists
how many buffered bytes the transport accepts at each flush poll. -/

/-- High-water mark of the framed write buffer (8 KiB). -/
def hw : Nat := 8192

/-- Result of the inner fill loop of `send_body`. -/
structure FillResult where
  remaining : List Nat
  buf : Nat
  eof : Bool
  polls : List Nat
deriving DecidableEq

/-- The inner loop of `send_body` (lines 173-183): while the producer has
not ended and the write buffer is not full, poll the producer and write
the chunk (or the end-of-body sentinel).  `polls` records the buffer
fill at each poll of the producer. -/
def fillLoop (eofLen : Nat) : List Nat → Nat → FillResult
| chunks, buf =>
  if hw ≤ buf then ⟨chunks, buf, false, []⟩
  else
    match chunks with
    | [] => ⟨[], buf + eofLen, true, [buf]⟩
    | c :: rest =>
      let r := fillLoop eofLen rest (buf + c)
      ⟨r.remaining, r.buf, r.eof, buf :: r.polls⟩

/-- Result of the flush-until-below-capacity phase of `send_body`. -/
structure FlushResult where
  remaining : List Nat
  buf : Nat
  completed : Bool
deriving DecidableEq

/-- The flush poll loop of `send_body` (lines 185-198): each poll drains
what the transport accepts; complete readiness (empty buffer) or a
pending flush that has already dropped below capacity ends the phase.
An exhausted oracle models a transport that never becomes ready. -/
def flushPhase : List Nat → Nat → FlushResult
| [], buf => ⟨[], buf, false⟩
| d :: rest, buf =>
  let b := buf - d
  if b = 0 then ⟨rest, 0, true⟩
  else if b < hw then ⟨rest, b, true⟩
  else flushPhase rest b

/-- Accumulated outcome of `send_body`. -/
structure SendBodyRun where
  polls : List Nat
  buf : Nat
  ok : Bool
deriving DecidableEq

/-- The outer loop of `send_body` (lines 171-199) plus the final flush of
line 201: while not end-of-data, fill until full then flush until below
capacity.  Fuel bounds the number of outer iterations; running out of
fuel or of flush oracle ends the run with `ok := false`. -/
def sendBodyLoop (eofLen : Nat) : Nat → List Nat → List Nat → Nat → Bool → SendBodyRun
| _, _, _, _, true => ⟨[], 0, true⟩
| 0, _, _, buf, false => ⟨[], buf, false⟩
| fuel + 1, chunks, oracle, buf, false =>
  let f := fillLoop eofLen chunks buf
  let fl := if f.buf ≠ 0 then flushPhase oracle f.buf else ⟨oracle, f.buf, true⟩
  if fl.completed then
    let r := sendBodyLoop eofLen fuel f.remaining fl.remaining fl.buf f.eof
    ⟨f.polls ++ r.polls, r.buf, r.ok⟩
  else ⟨f.polls, fl.buf, false⟩

/-!  The payload stream, `PlStream` (lines 278-326).  One pull of
`poll_next` reacts to one item decoded by the payload codec. -/

/-- One outcome of `next_item` on the payload codec: pending, a chunk,
the end-of-body signal `Ready(Some(Ok(None)))`, bare stream end
`Ready(None)`, or a decode error. -/
inductive PlItem
| pending
| chunk (b : List Nat)
| eofSignal
| streamEnd
| err
deriving DecidableEq

/-- State of a `PlStream`: the lease and the keep-alive flag of its
payload codec. -/
structure PlState where
  conn : H1Connection
  keepalive : Bool
deriving DecidableEq

/-- What one call of `PlStream::poll_next` hands to the consumer. -/
inductive PlOut
| pending
| chunkOut (b : List Nat)
| endOut
| errOut
deriving DecidableEq

/-- Models `PlStream::poll_next` (lines 306-325): a decoded chunk is
yielded; the end-of-body signal reads the keep-alive flag and releases
or closes the lease, then ends the sequence; bare stream end ends the
sequence without touching the lease; a decode error is surfaced without
touching the lease. -/
def plPollNext (s : PlState) (item : PlItem) : PlState × PlOut × List Ev :=
  match item with
  | .pending => (s, .pending, [])
  | .chunk b => (s, .chunkOut b, [])
  | .eofSignal =>
    let r := s.conn.onRelease s.keepalive
    (⟨r.1, s.keepalive⟩, .endOut, r.2)
  | .streamEnd => (s, .endOut, [])
  | .err => (s, .errOut, [])

/-- A consumer pulling a `PlStream` to its first terminal outcome:
successive pulls each consume one decoded item, until end-of-sequence or
an error is surfaced. -/
def plRun : List PlItem → PlState → PlState × List Ev
| [], s => (s, [])
| it :: rest, s =>
  let r := plPollNext s it
  match r.2.1 with
  | .endOut => (r.1, r.2.2)
  | .errOut => (r.1, r.2.2)
  | _ =>
    let k := plRun rest r.1
    (k.1, r.2.2 ++ k.2)

/-- An item ending the pull sequence. -/
def isTerminalItem : PlItem → Bool
| .eofSignal => true
| .streamEnd => true
| .err => true
| _ => false

/-!  Helper lemmas. -/

lemma any_filter_of_imp {a : Type} (l : List a) (p q : a → Bool)
    (h : ∀ e, q e = true → p e = true) :
    (l.filter p).any q = l.any q := by
  induction l with
  | nil => rfl
  | cons e rest ih =>
    by_cases hp : p e = true
    · rw [List.filter_cons_of_pos hp, List.any_cons, List.any_cons, ih]
    · have hq : q e = false := by
        cases hqe : q e
        · rfl
        · exact absurd (h e hqe) hp
      rw [List.filter_cons_of_neg hp, List.any_cons, hq, ih, Bool.false_or]

lemma HeaderMap.containsKey_insert_of_ne (m : HeaderMap) (k q v : String) (h : k ≠ q) :
    (m.insert k v).containsKey q = m.containsKey q := by
  unfold HeaderMap.insert HeaderMap.containsKey
  simp only [List.any_cons]
  have hk : (k == q) = false := by simp [h]
  rw [hk]
  simp only [Bool.false_or]
  apply any_filter_of_imp
  intro e he
  have he1 : e.1 = q := by simpa using he
  have hqk : (q == k) = false := by simp [Ne.symm h]
  simp [he1, hqk]

lemma setHostHeader_expect (head : RequestHeadType) :
    (setHostHeader head).asRef.headers.containsKey EXPECT
      = head.asRef.headers.containsKey EXPECT := by
  unfold setHostHeader
  split
  · split
    · split
      · split
        · simp only [RequestHeadType.asRef]
          exact HeaderMap.containsKey_insert_of_ne _ _ _ _ (by decide)
        · rfl
      · rfl
    · rfl
  · rfl

lemma HeaderMap.get_insert_self (m : HeaderMap) (k v : String) :
    (m.insert k v).get k = some v := by
  simp [HeaderMap.insert, HeaderMap.get]

lemma HeaderMap.get_eq_none (m : HeaderMap) (k : String)
    (h : m.containsKey k = false) : m.get k = none := by
  unfold HeaderMap.get
  have hf : m.entries.find? (fun e => e.1 == k) = none := by
    rw [List.find?_eq_none]
    intro a ha hpa
    have hx : m.entries.any (fun e => e.1 == k) = true :=
      List.any_eq_true.mpr ⟨a, ha, hpa⟩
    rw [HeaderMap.containsKey] at h
    rw [h] at hx
    cases hx
  rw [hf]
  rfl

/-- C8: invoking release or close (directly or through `on_release` with
any keep-alive value) on a lease whose transport slot is already empty is
a no-op: no surrender to the pool happens and the lease is unchanged. -/
theorem c8_release_close_idempotent :
    ∀ ka : Bool,
      H1Connection.close ⟨none⟩ = (⟨none⟩, []) ∧
      H1Connection.release ⟨none⟩ = (⟨none⟩, []) ∧
      H1Connection.onRelease ⟨none⟩ ka = (⟨none⟩, []) := by
  intro ka
  cases ka <;> exact ⟨rfl, rfl, rfl⟩

/-- C9: `open_tunnel` sends the request head with no body framing
(declared size `BodySize::None`), awaits exactly one response head whose
absence is the disconnection error, and on success returns that head and
the still-framed connection intact, making no release/close decision. -/
theorem c9_open_tunnel (head : RequestHeadType) (responses : List ResponseHead) :
    (openTunnel head responses).events.countP Ev.isSurrender = 0 ∧
    (openTunnel head responses).events.head? = some (Ev.sendHead head BodySize.none) ∧
    (responses = [] →
      (openTunnel head responses).result = .error .connectDisconnected) ∧
    (∀ h rest, responses = h :: rest →
      (openTunnel head responses).result = .ok (h, rest) ∧
      (openTunnel head responses).events
        = [Ev.sendHead head BodySize.none, Ev.readHead h.status]) := by
  cases responses with
  | nil =>
    refine ⟨?_, rfl, fun _ => rfl, ?_⟩
    · simp [openTunnel, List.countP_cons, Ev.isSurrender]
    · rintro h1 r1 heq
      cases heq
  | cons h rest =>
    refine ⟨?_, rfl, ?_, ?_⟩
    · simp [openTunnel, List.countP_cons, Ev.isSurrender]
    · intro hc
      cases hc
    · rintro h1 r1 heq
      injection heq with e1 e2
      subst e1
      subst e2
      exact ⟨rfl, rfl⟩

/-- Witness for C9 at a concrete input. -/
theorem c9_open_tunnel_witness :
    (openTunnel (.owned ⟨⟨"http", some "h", none⟩, ⟨[]⟩⟩) [⟨200⟩]).result
      = .ok (⟨200⟩, []) :=
  (c9_open_tunnel (.owned ⟨⟨"http", some "h", none⟩, ⟨[]⟩⟩) [⟨200⟩]).2.2.2
    ⟨200⟩ [] rfl |>.1

/-- C5 counterexample: for the URI `http://example.com:443` (scheme
default port 80, explicit port 443), the host-synthesis step of
`send_request` produces the Host value `example.com`, while the claim
(port omitted only when equal to the default port of the scheme) demands
`example.com:443`. -/
theorem c5_counterexample :
    RequestHeadType.declaresHeader
        (.owned ⟨⟨"http", some "example.com", some 443⟩, ⟨[]⟩⟩) HOST = false ∧
    (setHostHeader (.owned ⟨⟨"http", some "example.com", some 443⟩, ⟨[]⟩⟩)).headerValue HOST
        = some "example.com" ∧
    specHostValue ⟨"http", some "example.com", some 443⟩ "example.com" = "example.com:443" ∧
    ("example.com" : String) ≠ "example.com:443" := by
  exact ⟨by decide, by decide, by decide, by decide⟩

/-- C5 (amended): when neither base head nor overlay holds a Host header,
the URI has a host, and the formatted value is a valid header value, the
Host value synthesized by `send_request` equals `host` when the port is
absent or is 80 or 443 (regardless of the scheme of the URI), and
`host:port` otherwise. -/
theorem c5_host_value (head : RequestHeadType) (host : String)
    (hH : head.declaresHeader HOST = false)
    (hhost : head.asRef.uri.host = some host)
    (hvalid : (formatHostValue host head.asRef.uri.port).data.all isValidHeaderChar = true) :
    (setHostHeader head).headerValue HOST =
      some (if head.asRef.uri.port = none ∨ head.asRef.uri.port = some 80
              ∨ head.asRef.uri.port = some 443
            then host
            else host ++ ":" ++ toString ((head.asRef.uri.port).getD 0)) := by
  have hsplit := Bool.or_eq_false_iff.mp (by
    rw [RequestHeadType.declaresHeader] at hH
    exact hH)
  have hvv : tryIntoValue (formatHostValue host head.asRef.uri.port)
      = some (formatHostValue host head.asRef.uri.port) := by
    rw [tryIntoValue, hvalid]
    rfl
  have hval : formatHostValue host head.asRef.uri.port
      = (if head.asRef.uri.port = none ∨ head.asRef.uri.port = some 80
           ∨ head.asRef.uri.port = some 443
         then host
         else host ++ ":" ++ toString ((head.asRef.uri.port).getD 0)) := by
    rcases hp : head.asRef.uri.port with _ | p
    · simp [formatHostValue]
    · by_cases h80 : p = 80
      · simp [formatHostValue, h80]
      · by_cases h443 : p = 443
        · simp [formatHostValue, h443]
        · simp [formatHostValue, h80, h443]
  cases head with
  | owned h =>
    simp only [RequestHeadType.asRef] at hhost hvv hval
    have h1 : h.headers.containsKey HOST = false := by
      simpa only [RequestHeadType.asRef] using hsplit.1
    rw [setHostHeader]
    simp [RequestHeadType.asRef, RequestHeadType.extraHeaders, RequestHeadType.headerValue,
      h1, hhost, hvv, HeaderMap.get_insert_self]
    rw [hval]
  | rc h extra =>
    simp only [RequestHeadType.asRef] at hhost hvv hval
    have h1 : h.headers.containsKey HOST = false := by
      simpa only [RequestHeadType.asRef] using hsplit.1
    have h2 : (extra.map (fun m => m.containsKey HOST)).getD false = false := by
      simpa only [RequestHeadType.extraHeaders] using hsplit.2
    have hbase : h.headers.get HOST = none := HeaderMap.get_eq_none _ _ h1
    rw [setHostHeader]
    simp [RequestHeadType.asRef, RequestHeadType.extraHeaders, RequestHeadType.headerValue,
      h1, h2, hhost, hvv, hbase, HeaderMap.get_insert_self]
    rw [hval]

/-- Witness for C5 (amended) at a concrete input with an explicit
non-default port. -/
theorem c5_host_value_witness :
    (setHostHeader (.owned ⟨⟨"http", some "example.com", some 8080⟩, ⟨[]⟩⟩)).headerValue HOST
      = some "example.com:8080" := by
  have h := c5_host_value (.owned ⟨⟨"http", some "example.com", some 8080⟩, ⟨[]⟩⟩)
    "example.com" (by decide) (by decide) (by decide)
  simpa using h

/-- C6: when converting the formatted Host value into a header value
fails, the failure is absorbed locally: the head is left unchanged (the
header is simply omitted) and `send_request` proceeds with the exchange
on that head instead of returning an error. -/
theorem c6_host_failure_recovered (head : RequestHeadType) (body : MessageBody)
    (codec : ClientCodec) (responses : List ResponseHead) (host : String)
    (hhost : head.asRef.uri.host = some host)
    (hfail : tryIntoValue (formatHostValue host head.asRef.uri.port) = none) :
    setHostHeader head = head ∧
    sendRequest head body codec responses = exchange head body codec responses := by
  have hset : setHostHeader head = head := by
    rw [setHostHeader]
    split
    · simp only [hhost, hfail]
    · rfl
  exact ⟨hset, by rw [sendRequest, hset]⟩

/-- Witness for C6 at a concrete input whose host contains a control
character, so that header-value conversion fails. -/
theorem c6_host_failure_recovered_witness :
    setHostHeader (.owned ⟨⟨"http", some "bad\x00host", none⟩, ⟨[]⟩⟩) =
      (.owned ⟨⟨"http", some "bad\x00host", none⟩, ⟨[]⟩⟩) ∧
    sendRequest (.owned ⟨⟨"http", some "bad\x00host", none⟩, ⟨[]⟩⟩)
        ⟨.empty, []⟩ ⟨true, .none⟩ [⟨200⟩]
      = exchange (.owned ⟨⟨"http", some "bad\x00host", none⟩, ⟨[]⟩⟩)
        ⟨.empty, []⟩ ⟨true, .none⟩ [⟨200⟩] :=
  c6_host_failure_recovered (.owned ⟨⟨"http", some "bad\x00host", none⟩, ⟨[]⟩⟩)
    ⟨.empty, []⟩ ⟨true, .none⟩ [⟨200⟩] "bad\x00host" (by decide) (by decide)

/-- C10: the synthesized Host header is inserted only into the
extra-headers overlay for a shared head (the overlay being created when
absent) while the shared base head map stays untouched, and directly
into the head map for an owned head. -/
theorem c10_host_insert_target (baseHead : RequestHead) (extra : Option HeaderMap)
    (host value : String)
    (hBase : baseHead.headers.containsKey HOST = false)
    (hOver : (extra.map (fun m => m.containsKey HOST)).getD false = false)
    (hhost : baseHead.uri.host = some host)
    (hv : tryIntoValue (formatHostValue host baseHead.uri.port) = some value) :
    setHostHeader (.rc baseHead extra)
      = .rc baseHead (some ((extra.getD HeaderMap.empty).insert HOST value)) ∧
    (setHostHeader (.rc baseHead extra)).asRef = baseHead ∧
    setHostHeader (.owned baseHead)
      = .owned { baseHead with headers := baseHead.headers.insert HOST value } := by
  have hrc : setHostHeader (.rc baseHead extra)
      = .rc baseHead (some ((extra.getD HeaderMap.empty).insert HOST value)) := by
    rw [setHostHeader]
    simp [RequestHeadType.asRef, RequestHeadType.extraHeaders, hBase, hOver, hhost, hv]
  have howned : setHostHeader (.owned baseHead)
      = .owned { baseHead with headers := baseHead.headers.insert HOST value } := by
    rw [setHostHeader]
    simp [RequestHeadType.asRef, RequestHeadType.extraHeaders, hBase, hhost, hv]
  exact ⟨hrc, by rw [hrc]; rfl, howned⟩

lemma countP_map_bodyChunk (l : List (List Nat)) :
    (l.map Ev.bodyChunk).countP Ev.isBodyChunk = l.length := by
  induction l with
  | nil => rfl
  | cons c rest ih => simp [List.countP_cons, Ev.isBodyChunk, ih]

lemma countP_map_bodyChunk_not (l : List (List Nat)) (p : Ev → Bool)
    (hp : ∀ x, p (Ev.bodyChunk x) = false) :
    (l.map Ev.bodyChunk).countP p = 0 := by
  induction l with
  | nil => rfl
  | cons c rest ih => simp [List.countP_cons, hp, ih]

lemma respond_result (h : ResponseHead) (codec : ClientCodec) (conn : H1Connection) :
    ∃ pl, (respond h codec conn).result = .ok (h, pl) := by
  cases hmt : codec.messageType
  · exact ⟨Payload.none, by simp [respond, hmt]⟩
  · exact ⟨Payload.stream, by simp [respond, hmt]⟩
  · exact ⟨Payload.stream, by simp [respond, hmt]⟩

lemma respond_events_cases (h : ResponseHead) (codec : ClientCodec) (conn : H1Connection) :
    (respond h codec conn).events = [] ∨
    (respond h codec conn).events = [Ev.release] ∨
    (respond h codec conn).events = [Ev.close] := by
  obtain ⟨io⟩ := conn
  cases hmt : codec.messageType <;> cases hka : codec.keepalive <;> cases io <;>
    simp [respond, hmt, hka, H1Connection.onRelease, H1Connection.release, H1Connection.close]

lemma respond_events_countP_not (h : ResponseHead) (codec : ClientCodec)
    (conn : H1Connection) (p : Ev → Bool)
    (hr : p Ev.release = false) (hc : p Ev.close = false) :
    (respond h codec conn).events.countP p = 0 := by
  rcases respond_events_cases h codec conn with he | he | he <;>
    simp [he, List.countP_cons, hr, hc]

lemma respond_of_mt_none (h : ResponseHead) (codec : ClientCodec)
    (hmt : codec.messageType = .none) :
    respond h codec ⟨some ()⟩ =
      ⟨.ok (h, Payload.none), [if codec.keepalive then Ev.release else Ev.close], ⟨none⟩⟩ := by
  cases hka : codec.keepalive <;>
    simp [respond, hmt, hka, H1Connection.onRelease, H1Connection.release, H1Connection.close]

lemma respond_of_mt_ne_none (h : ResponseHead) (codec : ClientCodec) (conn : H1Connection)
    (hmt : codec.messageType ≠ .none) :
    respond h codec conn = ⟨.ok (h, Payload.stream), [], conn⟩ := by
  cases hm : codec.messageType
  · exact absurd hm hmt
  · simp [respond, hm]
  · simp [respond, hm]

/-!  Path lemmas: the value of `exchange` on each control path. -/

lemma exchange_violation (H : RequestHeadType) (body : MessageBody) (codec : ClientCodec)
    (responses : List ResponseHead)
    (hEx : H.asRef.headers.containsKey EXPECT = true) (hTr : body.size.isTrivial = true) :
    exchange H body codec responses =
      ⟨.error .connectDisconnected,
       [if codec.keepalive then Ev.release else Ev.close], ⟨none⟩⟩ := by
  rw [exchange]
  cases hka : codec.keepalive <;>
    simp [hEx, hTr, hka, H1Connection.onRelease, H1Connection.release, H1Connection.close]

lemma exchange_expect_nil (H : RequestHeadType) (body : MessageBody) (codec : ClientCodec)
    (hEx : H.asRef.headers.containsKey EXPECT = true) (hTr : body.size.isTrivial = false) :
    exchange H body codec [] =
      ⟨.error .connectDisconnected, [Ev.sendHead H body.size], ⟨some ()⟩⟩ := by
  rw [exchange]
  simp [hEx, hTr]

lemma exchange_continue_nil (H : RequestHeadType) (body : MessageBody) (codec : ClientCodec)
    (h1 : ResponseHead)
    (hEx : H.asRef.headers.containsKey EXPECT = true) (hTr : body.size.isTrivial = false)
    (h100 : h1.status = 100) :
    exchange H body codec [h1] =
      ⟨.error .connectDisconnected,
       Ev.sendHead H body.size :: Ev.readHead h1.status :: bodyFrames body, ⟨some ()⟩⟩ := by
  rw [exchange]
  simp [hEx, hTr, h100]

lemma exchange_continue (H : RequestHeadType) (body : MessageBody) (codec : ClientCodec)
    (h1 h2 : ResponseHead) (rest : List ResponseHead)
    (hEx : H.asRef.headers.containsKey EXPECT = true) (hTr : body.size.isTrivial = false)
    (h100 : h1.status = 100) :
    exchange H body codec (h1 :: h2 :: rest) =
      ⟨(respond h2 codec ⟨some ()⟩).result,
       Ev.sendHead H body.size :: Ev.readHead h1.status ::
         (bodyFrames body ++ Ev.readHead h2.status :: (respond h2 codec ⟨some ()⟩).events),
       (respond h2 codec ⟨some ()⟩).conn⟩ := by
  rw [exchange]
  simp [hEx, hTr, h100]

lemma exchange_rejected (H : RequestHeadType) (body : MessageBody) (codec : ClientCodec)
    (h1 : ResponseHead) (rest : List ResponseHead)
    (hEx : H.asRef.headers.containsKey EXPECT = true) (hTr : body.size.isTrivial = false)
    (h100 : ¬ h1.status = 100) :
    exchange H body codec (h1 :: rest) =
      ⟨(respond h1 codec ⟨some ()⟩).result,
       Ev.sendHead H body.size :: Ev.readHead h1.status :: (respond h1 codec ⟨some ()⟩).events,
       (respond h1 codec ⟨some ()⟩).conn⟩ := by
  rw [exchange]
  simp [hEx, hTr, h100]

lemma exchange_plain_nil_trivial (H : RequestHeadType) (body : MessageBody)
    (codec : ClientCodec)
    (hEx : H.asRef.headers.containsKey EXPECT = false) (hTr : body.size.isTrivial = true) :
    exchange H body codec [] =
      ⟨.error .connectDisconnected, [Ev.sendHead H body.size], ⟨some ()⟩⟩ := by
  rw [exchange]
  simp [hEx, hTr]

lemma exchange_plain_nil_nontrivial (H : RequestHeadType) (body : MessageBody)
    (codec : ClientCodec)
    (hEx : H.asRef.headers.containsKey EXPECT = false) (hTr : body.size.isTrivial = false) :
    exchange H body codec [] =
      ⟨.error .connectDisconnected,
       Ev.sendHead H body.size :: bodyFrames body, ⟨some ()⟩⟩ := by
  rw [exchange]
  simp [hEx, hTr]

lemma exchange_plain_trivial (H : RequestHeadType) (body : MessageBody) (codec : ClientCodec)
    (h1 : ResponseHead) (rest : List ResponseHead)
    (hEx : H.asRef.headers.containsKey EXPECT = false) (hTr : body.size.isTrivial = true) :
    exchange H body codec (h1 :: rest) =
      ⟨(respond h1 codec ⟨some ()⟩).result,
       Ev.sendHead H body.size :: Ev.readHead h1.status :: (respond h1 codec ⟨some ()⟩).events,
       (respond h1 codec ⟨some ()⟩).conn⟩ := by
  rw [exchange]
  simp [hEx, hTr]

lemma exchange_plain_nontrivial (H : RequestHeadType) (body : MessageBody) (codec : ClientCodec)
    (h1 : ResponseHead) (rest : List ResponseHead)
    (hEx : H.asRef.headers.containsKey EXPECT = false) (hTr : body.size.isTrivial = false) :
    exchange H body codec (h1 :: rest) =
      ⟨(respond h1 codec ⟨some ()⟩).result,
       Ev.sendHead H body.size ::
         (bodyFrames body ++ Ev.readHead h1.status :: (respond h1 codec ⟨some ()⟩).events),
       (respond h1 codec ⟨some ()⟩).conn⟩ := by
  rw [exchange]
  simp [hEx, hTr]

/-- C2 counterexample: a shared head whose extra-headers overlay declares
`Expect: 100-continue` (spec §3 requires header lookups to consult the
overlay) with an empty body: the claim demands a disconnection error, but
`send_request` completes the exchange successfully, because the Expect
check of the source consults only the base head header map. -/
theorem c2_counterexample :
    RequestHeadType.declaresHeader
        (.rc ⟨⟨"http", some "h", none⟩, ⟨[]⟩⟩ (some ⟨[("expect", "100-continue")]⟩)) EXPECT
      = true ∧
    BodySize.isTrivial .empty = true ∧
    (sendRequest (.rc ⟨⟨"http", some "h", none⟩, ⟨[]⟩⟩ (some ⟨[("expect", "100-continue")]⟩))
        ⟨.empty, []⟩ ⟨true, .stream⟩ [⟨200⟩]).result
      = .ok (⟨200⟩, .stream) :=
  ⟨by decide, by decide, by decide⟩

/-- C2 (amended): for every request declaring an Expect header in its base
head header map while the declared body size is absent, empty or
`Sized(0)`, `send_request` terminates with the connect-style disconnection
error, the lease is released or closed according to the keep-alive flag
(not closed unconditionally), and no body frame is ever written. -/
theorem c2_expect_violation (head : RequestHeadType) (body : MessageBody)
    (codec : ClientCodec) (responses : List ResponseHead)
    (hE : head.asRef.headers.containsKey EXPECT = true)
    (hB : body.size.isTrivial = true) :
    (sendRequest head body codec responses).result = .error .connectDisconnected ∧
    (sendRequest head body codec responses).events
      = [if codec.keepalive then Ev.release else Ev.close] ∧
    (sendRequest head body codec responses).events.countP Ev.isBodyFrame = 0 := by
  have hE2 : (setHostHeader head).asRef.headers.containsKey EXPECT = true := by
    rw [setHostHeader_expect]
    exact hE
  rw [sendRequest, exchange_violation _ _ _ _ hE2 hB]
  refine ⟨rfl, rfl, ?_⟩
  cases hka : codec.keepalive <;> simp [hka, List.countP_cons, Ev.isBodyFrame]

/-- Witness for C2 (amended) at a concrete input. -/
theorem c2_expect_violation_witness :
    (sendRequest (.owned ⟨⟨"http", some "h", none⟩, ⟨[("expect", "100-continue")]⟩⟩)
        ⟨.empty, []⟩ ⟨true, .stream⟩ []).result = .error .connectDisconnected :=
  (c2_expect_violation (.owned ⟨⟨"http", some "h", none⟩, ⟨[("expect", "100-continue")]⟩⟩)
    ⟨.empty, []⟩ ⟨true, .stream⟩ [] (by decide) (by decide)).1

/-- C1 counterexample: with `Expect: 100-continue` declared only in the
extra-headers overlay of a shared head (spec §3 requires header lookups
to consult the overlay) and a non-trivial body, `send_request` does not
wait for the interim response: a body chunk is written before the first
response head is observed. -/
theorem c1_counterexample :
    RequestHeadType.declaresHeader
        (.rc ⟨⟨"http", some "h", none⟩, ⟨[]⟩⟩ (some ⟨[("expect", "100-continue")]⟩)) EXPECT
      = true ∧
    BodySize.isTrivial (.sized 3) = false ∧
    chunkBeforeFirstHead
        (sendRequest
          (.rc ⟨⟨"http", some "h", none⟩, ⟨[]⟩⟩ (some ⟨[("expect", "100-continue")]⟩))
          ⟨.sized 3, [[97, 98, 99]]⟩ ⟨true, .stream⟩ [⟨200⟩]).events = true :=
  ⟨by decide, by decide, by decide⟩

/-- C1 (amended): for every request declaring Expect in its base head
header map with a non-trivial body, no body chunk is written before the
first response head is observed; if that head has status 100 the body is
transmitted and a second response head is awaited and used as the result;
for any other status that first head is the final result and zero body
frames are written. -/
theorem c1_expect_continue (head : RequestHeadType) (body : MessageBody)
    (codec : ClientCodec) (responses : List ResponseHead)
    (hE : head.asRef.headers.containsKey EXPECT = true)
    (hB : body.size.isTrivial = false) :
    chunkBeforeFirstHead (sendRequest head body codec responses).events = false ∧
    (responses = [] →
      (sendRequest head body codec responses).result = .error .connectDisconnected) ∧
    (∀ h1 rest, responses = h1 :: rest →
      (h1.status = 100 →
        (rest = [] →
          (sendRequest head body codec responses).result = .error .connectDisconnected) ∧
        (∀ h2 rest2, rest = h2 :: rest2 →
          (∃ pl, (sendRequest head body codec responses).result = .ok (h2, pl)) ∧
          (sendRequest head body codec responses).events.countP Ev.isBodyChunk
            = body.chunks.length ∧
          (sendRequest head body codec responses).events.countP Ev.isReadHead = 2)) ∧
      (¬ h1.status = 100 →
        (∃ pl, (sendRequest head body codec responses).result = .ok (h1, pl)) ∧
        (sendRequest head body codec responses).events.countP Ev.isBodyFrame = 0)) := by
  have hE2 : (setHostHeader head).asRef.headers.containsKey EXPECT = true := by
    rw [setHostHeader_expect]
    exact hE
  have hbfChunk : (bodyFrames body).countP Ev.isBodyChunk = body.chunks.length := by
    simp [bodyFrames, List.countP_append, countP_map_bodyChunk, List.countP_cons, Ev.isBodyChunk]
  have hbfRead : (bodyFrames body).countP Ev.isReadHead = 0 := by
    simp [bodyFrames, List.countP_append, List.countP_cons, Ev.isReadHead,
      countP_map_bodyChunk_not body.chunks Ev.isReadHead (fun _ => rfl)]
  rw [sendRequest]
  cases responses with
  | nil =>
    rw [exchange_expect_nil _ _ _ hE2 hB]
    refine ⟨?_, fun _ => rfl, ?_⟩
    · simp [chunkBeforeFirstHead, Ev.isReadHead, Ev.isBodyChunk]
    · rintro h1 rest heq
      cases heq
  | cons h1 rest =>
    by_cases h100 : h1.status = 100
    · cases rest with
      | nil =>
        rw [exchange_continue_nil _ _ _ _ hE2 hB h100]
        refine ⟨?_, ?_, ?_⟩
        · simp [chunkBeforeFirstHead, List.takeWhile_cons, Ev.isReadHead, Ev.isBodyChunk]
        · intro heq
          cases heq
        · rintro h1x restx heq
          injection heq with e1 e2
          subst e1
          subst e2
          refine ⟨fun _ => ⟨fun _ => rfl, ?_⟩, fun hney => absurd h100 hney⟩
          rintro h2 rest2 heq2
          cases heq2
      | cons h2 rest2 =>
        rw [exchange_continue _ _ _ _ _ _ hE2 hB h100]
        refine ⟨?_, ?_, ?_⟩
        · simp [chunkBeforeFirstHead, List.takeWhile_cons, Ev.isReadHead, Ev.isBodyChunk]
        · intro heq
          cases heq
        · rintro h1x restx heq
          injection heq with e1 e2
          subst e1
          subst e2
          refine ⟨fun _ => ⟨fun heq2 => ?_, ?_⟩, fun hney => absurd h100 hney⟩
          · cases heq2
          · rintro h2x rest2x heq2
            injection heq2 with f1 f2
            subst f1
            subst f2
            refine ⟨respond_result h2 codec ⟨some ()⟩, ?_, ?_⟩
            · simp [List.countP_cons, List.countP_append, Ev.isBodyChunk, hbfChunk,
                respond_events_countP_not h2 codec ⟨some ()⟩ Ev.isBodyChunk rfl rfl]
            · simp [List.countP_cons, List.countP_append, Ev.isReadHead, hbfRead,
                respond_events_countP_not h2 codec ⟨some ()⟩ Ev.isReadHead rfl rfl]
    · rw [exchange_rejected _ _ _ _ _ hE2 hB h100]
      refine ⟨?_, ?_, ?_⟩
      · simp [chunkBeforeFirstHead, List.takeWhile_cons, Ev.isReadHead, Ev.isBodyChunk]
      · intro heq
        cases heq
      · rintro h1x restx heq
        injection heq with e1 e2
        subst e1
        subst e2
        refine ⟨fun hyes => absurd hyes h100, fun _ => ?_⟩
        refine ⟨respond_result h1 codec ⟨some ()⟩, ?_⟩
        simp [List.countP_cons, List.countP_append, Ev.isBodyFrame,
          respond_events_countP_not h1 codec ⟨some ()⟩ Ev.isBodyFrame rfl rfl]

/-- Witness for C1 (amended) at a concrete input: base-head Expect,
one-chunk body, interim 100 followed by the final head. -/
theorem c1_expect_continue_witness :
    chunkBeforeFirstHead
      (sendRequest (.owned ⟨⟨"http", some "h", none⟩, ⟨[("expect", "100-continue")]⟩⟩)
        ⟨.sized 3, [[97, 98, 99]]⟩ ⟨true, .stream⟩ [⟨100⟩, ⟨200⟩]).events = false :=
  (c1_expect_continue (.owned ⟨⟨"http", some "h", none⟩, ⟨[("expect", "100-continue")]⟩⟩)
    ⟨.sized 3, [[97, 98, 99]]⟩ ⟨true, .stream⟩ [⟨100⟩, ⟨200⟩]
    (by decide) (by decide)).1

lemma sendRequest_ok_shape (head : RequestHeadType) (body : MessageBody)
    (codec : ClientCodec) (responses : List ResponseHead) :
    ∀ h pl, (sendRequest head body codec responses).result = .ok (h, pl) →
      ∃ pre : List Ev,
        sendRequest head body codec responses
          = ⟨(respond h codec ⟨some ()⟩).result,
             pre ++ (respond h codec ⟨some ()⟩).events,
             (respond h codec ⟨some ()⟩).conn⟩ ∧
        pre.countP Ev.isSurrender = 0 := by
  intro h pl hok
  have hbf : (bodyFrames body).countP Ev.isSurrender = 0 := by
    simp [bodyFrames, List.countP_append, List.countP_cons, Ev.isSurrender,
      countP_map_bodyChunk_not body.chunks Ev.isSurrender (fun _ => rfl)]
  rw [sendRequest] at hok ⊢
  cases hEx : (setHostHeader head).asRef.headers.containsKey EXPECT with
  | true =>
    cases hTr : body.size.isTrivial with
    | true =>
      rw [exchange_violation _ _ _ _ hEx hTr] at hok
      simp at hok
    | false =>
      cases responses with
      | nil =>
        rw [exchange_expect_nil _ _ _ hEx hTr] at hok
        simp at hok
      | cons h1 rest =>
        by_cases h100 : h1.status = 100
        · cases rest with
          | nil =>
            rw [exchange_continue_nil _ _ _ _ hEx hTr h100] at hok
            simp at hok
          | cons h2 rest2 =>
            rw [exchange_continue _ _ _ _ _ _ hEx hTr h100] at hok ⊢
            obtain ⟨pl0, hr⟩ := respond_result h2 codec ⟨some ()⟩
            rw [hr] at hok
            have hok2 : (Except.ok (h2, pl0) : Except SendError (ResponseHead × Payload))
                = .ok (h, pl) := hok
            injection hok2 with hpair
            injection hpair with hh hp
            subst hh
            refine ⟨Ev.sendHead (setHostHeader head) body.size ::
              (Ev.readHead h1.status :: (bodyFrames body ++ [Ev.readHead h2.status])), ?_, ?_⟩
            · simp [List.append_assoc]
            · simp [List.countP_cons, List.countP_append, Ev.isSurrender, hbf]
        · rw [exchange_rejected _ _ _ _ _ hEx hTr h100] at hok ⊢
          obtain ⟨pl0, hr⟩ := respond_result h1 codec ⟨some ()⟩
          rw [hr] at hok
          have hok2 : (Except.ok (h1, pl0) : Except SendError (ResponseHead × Payload))
              = .ok (h, pl) := hok
          injection hok2 with hpair
          injection hpair with hh hp
          subst hh
          refine ⟨[Ev.sendHead (setHostHeader head) body.size, Ev.readHead h1.status], ?_, ?_⟩
          · simp
          · simp [List.countP_cons, Ev.isSurrender]
  | false =>
    cases hTr : body.size.isTrivial with
    | true =>
      cases responses with
      | nil =>
        rw [exchange_plain_nil_trivial _ _ _ hEx hTr] at hok
        simp at hok
      | cons h1 rest =>
        rw [exchange_plain_trivial _ _ _ _ _ hEx hTr] at hok ⊢
        obtain ⟨pl0, hr⟩ := respond_result h1 codec ⟨some ()⟩
        rw [hr] at hok
        have hok2 : (Except.ok (h1, pl0) : Except SendError (ResponseHead × Payload))
            = .ok (h, pl) := hok
        injection hok2 with hpair
        injection hpair with hh hp
        subst hh
        refine ⟨[Ev.sendHead (setHostHeader head) body.size, Ev.readHead h1.status], ?_, ?_⟩
        · simp
        · simp [List.countP_cons, Ev.isSurrender]
    | false =>
      cases responses with
      | nil =>
        rw [exchange_plain_nil_nontrivial _ _ _ hEx hTr] at hok
        simp at hok
      | cons h1 rest =>
        rw [exchange_plain_nontrivial _ _ _ _ _ hEx hTr] at hok ⊢
        obtain ⟨pl0, hr⟩ := respond_result h1 codec ⟨some ()⟩
        rw [hr] at hok
        have hok2 : (Except.ok (h1, pl0) : Except SendError (ResponseHead × Payload))
            = .ok (h, pl) := hok
        injection hok2 with hpair
        injection hpair with hh hp
        subst hh
        refine ⟨Ev.sendHead (setHostHeader head) body.size ::
          (bodyFrames body ++ [Ev.readHead h1.status]), ?_, ?_⟩
        · simp [List.append_assoc]
        · simp [List.countP_cons, List.countP_append, Ev.isSurrender, hbf]

/-- C4: for every successful exchange where the codec reports message
type `None`, the keep-alive flag is read and the lease is released or
closed exactly once, as the final effect before `send_request` returns,
the lease slot ends empty, and the response head is returned paired with
the empty payload marker. -/
theorem c4_no_body (head : RequestHeadType) (body : MessageBody)
    (codec : ClientCodec) (responses : List ResponseHead)
    (hmt : codec.messageType = .none) :
    ∀ h pl, (sendRequest head body codec responses).result = .ok (h, pl) →
      pl = Payload.none ∧
      (sendRequest head body codec responses).events.countP Ev.isSurrender = 1 ∧
      (sendRequest head body codec responses).events.getLast?
        = some (if codec.keepalive then Ev.release else Ev.close) ∧
      (sendRequest head body codec responses).conn.io = none := by
  intro h pl hok
  obtain ⟨pre, hshape, hpre⟩ := sendRequest_ok_shape head body codec responses h pl hok
  rw [hshape] at hok ⊢
  rw [respond_of_mt_none h codec hmt] at hok ⊢
  have hpl : Payload.none = pl := by simpa using hok
  subst hpl
  refine ⟨rfl, ?_, ?_, rfl⟩
  · simp [List.countP_append, List.countP_cons, hpre]
    cases hka : codec.keepalive <;> simp [hka, Ev.isSurrender]
  · simp [List.getLast?_concat]

/-- Witness for C4 at a concrete input: a 204-style response with
message type `None` and keep-alive true. -/
theorem c4_no_body_witness :
    (sendRequest (.owned ⟨⟨"http", some "h", none⟩, ⟨[]⟩⟩)
        ⟨.empty, []⟩ ⟨true, .none⟩ [⟨204⟩]).events.countP Ev.isSurrender = 1 :=
  (c4_no_body (.owned ⟨⟨"http", some "h", none⟩, ⟨[]⟩⟩)
    ⟨.empty, []⟩ ⟨true, .none⟩ [⟨204⟩] rfl ⟨204⟩ Payload.none (by decide)).2.1

lemma plRun_surrender (items : List PlItem) (ka : Bool) :
    ((items.find? isTerminalItem = some PlItem.eofSignal) →
      ((plRun items ⟨⟨some ()⟩, ka⟩).2.countP Ev.isSurrender = 1 ∧
       (plRun items ⟨⟨some ()⟩, ka⟩).2.getLast?
         = some (if ka then Ev.release else Ev.close))) ∧
    ((items.find? isTerminalItem ≠ some PlItem.eofSignal) →
      (plRun items ⟨⟨some ()⟩, ka⟩).2.countP Ev.isSurrender = 0) := by
  induction items with
  | nil =>
    refine ⟨fun hc => ?_, fun _ => rfl⟩
    simp at hc
  | cons it rest ih =>
    cases it with
    | pending =>
      simpa [plRun, plPollNext, List.find?_cons, isTerminalItem] using ih
    | chunk b =>
      simpa [plRun, plPollNext, List.find?_cons, isTerminalItem] using ih
    | eofSignal =>
      refine ⟨fun _ => ?_, fun hne => absurd ?_ hne⟩
      · cases hka : ka <;>
          simp [plRun, plPollNext, H1Connection.onRelease, H1Connection.release,
            H1Connection.close, hka, List.countP_cons, Ev.isSurrender]
      · simp [List.find?_cons, isTerminalItem]
    | streamEnd =>
      refine ⟨fun hc => ?_, fun _ => ?_⟩
      · simp [List.find?_cons, isTerminalItem] at hc
      · simp [plRun, plPollNext]
    | err =>
      refine ⟨fun hc => ?_, fun _ => ?_⟩
      · simp [List.find?_cons, isTerminalItem] at hc
      · simp [plRun, plPollNext]

/-- C3: for every successful exchange with a body-bearing response
(message type not `None`), `send_request` itself performs no release or
close; and when the payload stream consumer pulls to the item signalling
end-of-sequence, the keep-alive flag decides release versus close and the
surrender happens exactly once, as the final effect at that point; a run
not reaching the end-of-sequence signal surrenders nothing. -/
theorem c3_payload_stream_release (head : RequestHeadType) (body : MessageBody)
    (codec : ClientCodec) (responses : List ResponseHead)
    (items : List PlItem) (ka : Bool)
    (hmt : codec.messageType ≠ MessageType.none) :
    (∀ h pl, (sendRequest head body codec responses).result = .ok (h, pl) →
      (sendRequest head body codec responses).events.countP Ev.isSurrender = 0) ∧
    (items.find? isTerminalItem = some PlItem.eofSignal →
      (plRun items ⟨⟨some ()⟩, ka⟩).2.countP Ev.isSurrender = 1 ∧
      (plRun items ⟨⟨some ()⟩, ka⟩).2.getLast?
        = some (if ka then Ev.release else Ev.close)) ∧
    (items.find? isTerminalItem ≠ some PlItem.eofSignal →
      (plRun items ⟨⟨some ()⟩, ka⟩).2.countP Ev.isSurrender = 0) := by
  refine ⟨?_, (plRun_surrender items ka).1, (plRun_surrender items ka).2⟩
  intro h pl hok
  obtain ⟨pre, hshape, hpre⟩ := sendRequest_ok_shape head body codec responses h pl hok
  rw [hshape, respond_of_mt_ne_none h codec ⟨some ()⟩ hmt]
  simp [List.countP_append, hpre]

/-- Witness for C3 at a concrete input: a streamed response whose payload
consumer reaches the end-of-sequence signal. -/
theorem c3_payload_stream_release_witness :
    (sendRequest (.owned ⟨⟨"http", some "h", none⟩, ⟨[]⟩⟩)
        ⟨.empty, []⟩ ⟨true, .stream⟩ [⟨200⟩]).events.countP Ev.isSurrender = 0 ∧
    (plRun [.chunk [1], .eofSignal] ⟨⟨some ()⟩, true⟩).2.countP Ev.isSurrender = 1 := by
  have h := c3_payload_stream_release (.owned ⟨⟨"http", some "h", none⟩, ⟨[]⟩⟩)
    ⟨.empty, []⟩ ⟨true, .stream⟩ [⟨200⟩] [.chunk [1], .eofSignal] true (by decide)
  exact ⟨h.1 ⟨200⟩ Payload.stream (by decide), (h.2.1 (by decide)).1⟩

/-- Witness for C10 at a concrete input. -/
theorem c10_host_insert_target_witness :
    setHostHeader (.rc ⟨⟨"http", some "example.com", none⟩, ⟨[]⟩⟩ none)
      = .rc ⟨⟨"http", some "example.com", none⟩, ⟨[]⟩⟩
          (some (HeaderMap.empty.insert HOST "example.com")) :=
  (c10_host_insert_target ⟨⟨"http", some "example.com", none⟩, ⟨[]⟩⟩ none
    "example.com" "example.com" (by decide) (by decide) (by decide) (by decide)).1

lemma fillLoop_polls_lt (eofLen : Nat) (chunks : List Nat) (buf : Nat) :
    ∀ p ∈ (fillLoop eofLen chunks buf).polls, p < hw := by
  induction chunks generalizing buf with
  | nil =>
    intro p hp
    rw [fillLoop] at hp
    by_cases hb : hw ≤ buf
    · simp [hb] at hp
    · simp [hb] at hp
      subst hp
      omega
  | cons c rest ih =>
    intro p hp
    rw [fillLoop] at hp
    by_cases hb : hw ≤ buf
    · simp [hb] at hp
    · simp [hb] at hp
      rcases hp with rfl | hp
      · omega
      · exact ih _ p hp

lemma flushPhase_completed_lt (oracle : List Nat) (buf : Nat) :
    (flushPhase oracle buf).completed = true → (flushPhase oracle buf).buf < hw := by
  induction oracle generalizing buf with
  | nil =>
    intro hc
    rw [flushPhase] at hc
    cases hc
  | cons d rest ih =>
    intro hc
    rw [flushPhase] at hc ⊢
    by_cases h0 : buf - d = 0
    · simp [h0]
      decide
    · by_cases hlt : buf - d < hw
      · simp [h0, hlt]
      · simp [h0, hlt] at hc ⊢
        exact ih _ hc

lemma sendBodyLoop_polls_lt (eofLen fuel : Nat) (chunks oracle : List Nat)
    (buf : Nat) (eof : Bool) :
    ∀ p ∈ (sendBodyLoop eofLen fuel chunks oracle buf eof).polls, p < hw := by
  induction fuel generalizing chunks oracle buf eof with
  | zero =>
    intro p hp
    cases eof
    · rw [sendBodyLoop] at hp
      simp at hp
    · rw [sendBodyLoop] at hp
      simp at hp
  | succ fuel ih =>
    intro p hp
    cases eof
    · rw [sendBodyLoop] at hp
      simp only at hp
      split at hp
      · split at hp
        · rcases List.mem_append.mp (by simpa using hp) with h1 | h1
          · exact fillLoop_polls_lt _ _ _ p h1
          · exact ih _ _ _ _ p h1
        · exact fillLoop_polls_lt _ _ _ p (by simpa using hp)
      · rcases (by simpa using hp :
            p ∈ (fillLoop eofLen chunks buf).polls ∨
            p ∈ (sendBodyLoop eofLen fuel (fillLoop eofLen chunks buf).remaining oracle
              (fillLoop eofLen chunks buf).buf (fillLoop eofLen chunks buf).eof).polls)
            with h1 | h1
        · exact fillLoop_polls_lt _ _ _ p h1
        · exact ih _ _ _ _ p h1
    · rw [sendBodyLoop] at hp
      simp at hp

/-- C7: throughout `send_body`, the producer is polled only while the
framed write buffer holds strictly fewer bytes than the high-water mark,
and the flush phase hands control back to the fill loop only once the
buffer has drained below capacity, so a new chunk is never pulled while a
full write buffer of body bytes is still unflushed, for every producer
(chunk list), flush schedule, initial buffer fill and fuel. -/
theorem c7_backpressure (eofLen fuel : Nat) (chunks oracle : List Nat)
    (buf : Nat) (eof : Bool) :
    (∀ p ∈ (sendBodyLoop eofLen fuel chunks oracle buf eof).polls, p < hw) ∧
    (∀ oracle2 buf2, (flushPhase oracle2 buf2).completed = true →
      (flushPhase oracle2 buf2).buf < hw) :=
  ⟨sendBodyLoop_polls_lt eofLen fuel chunks oracle buf eof,
   fun o b => flushPhase_completed_lt o b⟩

/-- Witness for C7 at a concrete input. -/
theorem c7_backpressure_witness :
    (0 : Nat) < hw ∧ (flushPhase [8000] 9000).buf < hw :=
  ⟨(c7_backpressure 5 2 [100] [200] 0 false).1 0 (by decide),
   (c7_backpressure 5 2 [100] [200] 0 false).2 [8000] 9000 (by decide)⟩

end H1Proto
